import Mathlib

/-! Package `graceful`: connection draining, role detection, descriptor
handoff and the supervisor.

A shallow embedding of `server.go` (package `graceful`).  Library calls
(`net/http`, `os`, `syscall`, `strconv`, `time`, `sync`) are modelled by their
documented behaviour; the functions of `server.go` are transcribed statement by
statement.
-/

namespace Graceful

/-! ## Errors -/

/-- The two sentinel errors a `*strconv.NumError` wraps. -/
inductive NumErr
  | ErrSyntax
  | ErrRange
deriving DecidableEq, Repr

/-- The Go `error` values that `server.go` creates, inspects or passes on.
`opError op net msg` is a `*net.OpError` with fields `Op`, `Net` and an inner
`Err` whose `Error()` text is `msg` (`net` documents `Err` as never nil);
`numError` is the `*strconv.NumError` of `strconv.Atoi`. -/
inductive Error
  | errNotForked
  | numError (fn num : String) (err : NumErr)
  | opError (op net msg : String)
  | other (msg : String)
deriving DecidableEq, Repr

deriving instance DecidableEq for Except

/-! ## `Serve`: the `ConnState` callback -/

/-- The `http.ConnState` values, in the order `net/http` declares them. -/
inductive ConnState
  | StateNew
  | StateActive
  | StateIdle
  | StateHijacked
  | StateClosed
deriving DecidableEq, Repr

/-- The variables `conns` and `wg` that the closure installed by `Serve`
captures: `conns` is the key set of `map[net.Conn]struct{}`, `wg` the counter of
the `sync.WaitGroup` (`wg.Wait()` returns when it is zero). -/
structure ServeVars (Conn : Type) where
  conns : Finset Conn
  wg : Int
deriving DecidableEq

/-- `sync.WaitGroup.Add(delta)`: the counter moves by `delta`; a counter that
would become negative panics (`none`). -/
def wgAdd (counter delta : Int) : Option Int :=
  if counter + delta < 0 then none else some (counter + delta)

/-- `sync.WaitGroup.Done()` is `Add(-1)`. -/
def wgDone (counter : Int) : Option Int := wgAdd counter (-1)

/-- `conns` and `wg` as `Serve` creates them: an empty map, a zero counter. -/
def ServeVars.init (Conn : Type) : ServeVars Conn :=
  { conns := ∅, wg := 0 }

/-- The body of `srv.ConnState = func(conn net.Conn, state http.ConnState)`
in `Serve`, between `mu.Lock()` and `mu.Unlock()`; `none` is a panic. -/
def connState {Conn : Type} [DecidableEq Conn]
    (v : ServeVars Conn) (conn : Conn) (state : ConnState) : Option (ServeVars Conn) :=
  match state with
  | .StateActive =>
    -- conns[conn] = struct{}{} ; wg.Add(1)
    (wgAdd v.wg 1).map fun wg => { conns := insert conn v.conns, wg := wg }
  | .StateIdle | .StateClosed =>
    if conn ∈ v.conns then
      -- delete(conns, conn) ; wg.Done()
      (wgDone v.wg).map fun wg => { conns := v.conns.erase conn, wg := wg }
    else some v
  | _ => some v

/-- The callback applied to a sequence of events, oldest first. -/
def connStates {Conn : Type} [DecidableEq Conn]
    (v : ServeVars Conn) : List (Conn × ConnState) → Option (ServeVars Conn)
  | [] => some v
  | (conn, state) :: rest => (connState v conn state).bind fun v1 => connStates v1 rest

/-- `wg.Wait()` reached with variables `v` while the events `draining` are still
to be delivered: it returns as soon as the counter is zero, and blocks for ever
when no prefix of `draining` brings it there. -/
def wgWait {Conn : Type} [DecidableEq Conn]
    (v : ServeVars Conn) : List (Conn × ConnState) → Bool
  | [] => decide (v.wg = 0)
  | (conn, state) :: rest =>
    decide (v.wg = 0) ||
      (match connState v conn state with
       | none => false
       | some v1 => wgWait v1 rest)

/-- The statements of `Serve` after `wg.Wait()`: the type assertion
`err.(*net.OpError)`, the Windows renaming of `AcceptEx`, the test for the
closed-listener accept failure, and `return err`.  `none` is Go's `nil`. -/
def acceptResult (goos : String) (err : Error) : Option Error :=
  match err with
  | .opError op0 _ msg =>
    let op := if goos = "windows" ∧ op0 = "AcceptEx" then "accept" else op0
    if op = "accept" ∧ msg = "use of closed network connection" then none
    else some err
  | _ => some err

/-- `Serve`: `during` are the connection events delivered while
`(*http.Server)(srv).Serve(l)` runs, `err` is what that call returns, `draining`
the events delivered afterwards.  The outer `none` means `Serve` has not
returned: it is blocked in `wg.Wait()` (or a callback panicked). -/
def Serve {Conn : Type} [DecidableEq Conn] (goos : String)
    (during draining : List (Conn × ConnState)) (err : Error) : Option (Option Error) :=
  match connStates (ServeVars.init Conn) during with
  | none => none
  | some v => if wgWait v draining then some (acceptResult goos err) else none

/-- Whether `conn` has, in the events `evs` (oldest first), gone active without
a matching idle or closed event after it. -/
def outstanding {Conn : Type} [DecidableEq Conn]
    (conn : Conn) (evs : List (Conn × ConnState)) : Bool :=
  evs.foldl (fun b e =>
    if e.1 = conn then
      (match e.2 with
       | .StateActive => true
       | .StateIdle | .StateClosed => false
       | _ => b)
    else b) false

/-- No connection is reported active while it is outstanding: between two
`StateActive` events of one connection lies a `StateIdle` or `StateClosed`
event of it, as in the state diagram of `http.ConnState`. -/
def ActiveOnce {Conn : Type} [DecidableEq Conn] (evs : List (Conn × ConnState)) : Prop :=
  ∀ pre conn post, evs = pre ++ (conn, ConnState.StateActive) :: post →
    outstanding conn pre = false

/-! ## The process environment (`os.Getenv`, `os.Environ`, `os.Setenv`) -/

/-- An environment string cut at its first `=`; `none` when it has none. -/
def cutEnv : List Char → Option (List Char × List Char)
  | [] => none
  | c :: cs => if c = '=' then some ([], cs) else (cutEnv cs).map fun kv => (c :: kv.1, kv.2)

/-- The variable an environment string names: the text before its first `=`. -/
def envKey (s : String) : Option String := (cutEnv s.toList).map fun kv => String.mk kv.1

/-- The value an environment string holds: the text after its first `=`. -/
def envValue (s : String) : String :=
  match cutEnv s.toList with
  | some kv => String.mk kv.2
  | none => ""

/-- `syscall.Getenv`, returning Go's `(value, found)` as an `Option`: the empty
key is never found, and of several strings naming `key` the first counts (the
runtime's key table records the first mention). -/
def lookupEnv (envs : List String) (key : String) : Option String :=
  if key = "" then none
  else (envs.find? fun s => envKey s = some key).map envValue

/-- `os.Getenv`: the value, or `""` when the variable is not found. -/
def Getenv (envs : List String) (key : String) : String :=
  (lookupEnv envs key).getD ""

/-- The loop of `syscall.copyenv`: a string whose key was already `seen` is
cleared to `""`. -/
def copyenv (seen : List String) : List String → List String
  | [] => []
  | s :: rest =>
    match envKey s with
    | some k => if k ∈ seen then "" :: copyenv seen rest else s :: copyenv (k :: seen) rest
    | none => s :: copyenv seen rest

/-- `os.Environ`: the strings left by `copyenv`, the cleared ones dropped. -/
def Environ (envs : List String) : List String :=
  (copyenv [] envs).filter fun s => s ≠ ""

/-- The update of `os.Setenv`: the first string naming `key` is overwritten
with `kv`, and `kv` is appended when there is none. -/
def setFirst (key kv : String) : List String → List String
  | [] => [kv]
  | s :: rest => if envKey s = some key then kv :: rest else s :: setFirst key kv rest

/-- `os.Setenv(key, value)`: `EINVAL` for an empty key, a key holding `=` or
NUL, or a value holding NUL; otherwise the environment is updated. -/
def Setenv (envs : List String) (key value : String) : Except Error (List String) :=
  if key = "" ∨ '=' ∈ key.toList ∨ Char.ofNat 0 ∈ key.toList ∨ Char.ofNat 0 ∈ value.toList then
    .error (.other "setenv: invalid argument")
  else .ok (setFirst key (key ++ "=" ++ value) envs)

/-! ## `strconv.Atoi` and `getFD` -/

/-- The value of a decimal digit. -/
def digitVal (c : Char) : Option Nat :=
  if '0' ≤ c ∧ c ≤ '9' then some (c.toNat - '0'.toNat) else none

/-- The digit loop of `strconv.ParseUint` for base 10 and 64 bits, with `n` the
value read so far: a character that is no digit ends it with `ErrSyntax`, a
digit that would take the value past `2^64 - 1` ends it with `ErrRange`,
whatever follows. -/
def parseUint (n : Nat) : List Char → Except NumErr Nat
  | [] => .ok n
  | c :: cs =>
    match digitVal c with
    | none => .error .ErrSyntax
    | some d =>
      -- cutoff is maxUint64/10 + 1: n*base overflows
      if (2 ^ 64 - 1) / 10 + 1 ≤ n then .error .ErrRange
      -- n+d overflows
      else if 2 ^ 64 - 1 < n * 10 + d then .error .ErrRange
      else parseUint (n * 10 + d) cs

/-- `strconv.Atoi` on a 64-bit platform (`strconv.ParseInt(s, 10, 0)` with the
function name set to `Atoi`): the empty string is `ErrSyntax`; a leading `+` or
`-` is picked off and the rest read by `ParseUint` (which rejects the empty
string); a syntax error is returned as such; otherwise a value outside
`[-2^63, 2^63)` is `ErrRange`. -/
def Atoi (s : String) : Except Error Int :=
  match s.toList with
  | [] => .error (.numError "Atoi" s .ErrSyntax)
  | c :: cs =>
    let neg := decide (c = '-')
    let body := if c = '+' ∨ c = '-' then cs else c :: cs
    match (if body = [] then Except.error NumErr.ErrSyntax else parseUint 0 body) with
    | .error .ErrSyntax => .error (.numError "Atoi" s .ErrSyntax)
    | .error .ErrRange => .error (.numError "Atoi" s .ErrRange)
    | .ok un =>
      if neg = false ∧ 2 ^ 63 ≤ un then .error (.numError "Atoi" s .ErrRange)
      else if neg = true ∧ 2 ^ 63 < un then .error (.numError "Atoi" s .ErrRange)
      else .ok (if neg then -(un : Int) else (un : Int))

/-- The conversion `uintptr(fd)` of an `int` on a 64-bit platform. -/
def uintptr (fd : Int) : Nat := (fd % 2 ^ 64).toNat

/-- `IsMaster`: `os.Getenv(FDEnvKey) == ""`. -/
def IsMaster (envs : List String) (FDEnvKey : String) : Bool :=
  decide (Getenv envs FDEnvKey = "")

/-- `IsWorker`: `!IsMaster()`. -/
def IsWorker (envs : List String) (FDEnvKey : String) : Bool :=
  !IsMaster envs FDEnvKey

/-- `getFD`: the descriptor of the listen socket, read from the environment. -/
def getFD (envs : List String) (FDEnvKey : String) : Except Error Nat :=
  let fdStr := Getenv envs FDEnvKey
  if fdStr = "" then .error .errNotForked
  else
    match Atoi fdStr with
    | .error err => .error err
    | .ok fd => .ok (uintptr fd)

/-! ## Package variables, listeners, the operating system -/

/-- A `syscall.Signal` (an `int`). -/
abbrev Signal := Int

/-- The hangup signal. -/
def SIGHUP : Signal := 1

/-- The interrupt signal. -/
def SIGINT : Signal := 2

/-- The terminate-request signal. -/
def SIGTERM : Signal := 15

/-- The `State` constants handed to the `ServerState` hook. -/
inductive State
  | StateStart
  | StateRestart
  | StateShutdown
  | StateWorkerStart
  | StateWorkerShutdown
deriving DecidableEq, Repr

/-- The package-level variables of `server.go` with their initial values.
`Timeout` is a `time.Duration` in nanoseconds; `ServerState` records whether the
hook is set (`ServerState != nil`): a call of the hook is an `Event`. -/
structure Vars where
  ShutdownSignal : Signal := SIGTERM
  RestartSignal : Signal := SIGHUP
  Timeout : Int := 3 * 60 * 1000000000
  ServerState : Bool := false
  FDEnvKey : String := "MIYABI_FD"

/-- A listening socket held by the process: a `tcpKeepAliveListener` around
the `*net.TCPListener` with number `id`, a `*net.UnixListener` bound at `addr`,
or the `*tls.listener` that `tls.NewListener` builds around another listener. -/
inductive Listener
  | tcp (id : Nat)
  | unix (addr : String)
  | tls (inner : Listener)
deriving DecidableEq, Repr

/-- Whether the dynamic type of a listener has the method `File`, that is,
whether the type assertion `.(listener)` succeeds on it: the TCP and Unix
listeners have it, `*tls.listener` embeds the interface `net.Listener` only and
has not. -/
def Listener.hasFile : Listener → Bool
  | .tcp _ => true
  | .unix _ => true
  | .tls _ => false

/-- The outcome of a call that can return a value, return an error, or panic. -/
inductive Outcome (α : Type)
  | ok (a : α)
  | error (err : Error)
  | panic
deriving DecidableEq, Repr

/-- What `net.FileListener` can return: a `*net.TCPListener` or a
`*net.UnixListener` bound at `addr`. -/
inductive FileListener
  | tcp (id : Nat)
  | unix (addr : String)
deriving DecidableEq, Repr

/-- An `*os.File`: a standard stream, or the file `l.File()` returns. -/
inductive File
  | Stdin
  | Stdout
  | Stderr
  | ofListener (l : Listener)
deriving DecidableEq, Repr

/-- The fields of `os.ProcAttr` that `forkExec` fills in. -/
structure ProcAttr where
  Dir : String
  Env : List String
  Files : List File
deriving DecidableEq, Repr

/-- An `*os.Process`, identified by its pid. -/
abbrev Proc := Nat

/-- The surroundings of the process: `runtime.GOOS`, `os.Args` (`arg0` is
`os.Args[0]`), the environment strings it was started with, and the outcome of
every library call `server.go` makes.  The calls made inside `forkExec` take
the number `n` of the `forkExec` call they belong to, since their outcome may
change between two calls.  `exitAfter p` is the time in nanoseconds worker `p`
needs to exit once it has been sent the graceful-shutdown signal, `waitErr p`
the error `p.Wait()` returns. -/
structure OS where
  GOOS : String
  arg0 : String
  args : List String
  envs : List String
  LookPath : Nat → String → Except Error String
  Getwd : Nat → Except Error String
  listenerFile : Nat → Listener → Option Error
  StartProcess : Nat → String → List String → ProcAttr → Except Error Proc
  ResolveTCPAddr : String → Except Error String
  ListenTCP : String → Except Error Nat
  ResolveUnixAddr : String → Except Error String
  ListenUnix : String → Option Error
  LoadX509KeyPair : String → String → Option Error
  fileListener : Nat → Except Error FileListener
  Stat : String → Bool
  Remove : String → Option Error
  exitAfter : Proc → Nat
  waitErr : Proc → Option Error

/-! ## `forkExec`, `listenerFromFDEnv`, `ListenAndServe` -/

/-- `listenUnix`: `net.ResolveUnixAddr`, then `net.ListenUnix`. -/
def listenUnix (os : OS) (addr : String) : Except Error Listener :=
  match os.ResolveUnixAddr addr with
  | .error err => .error err
  | .ok laddr =>
    match os.ListenUnix laddr with
    | some err => .error err
    | none => .ok (.unix laddr)

/-- `listenTCP`: `net.ResolveTCPAddr`, then `net.ListenTCP`, the listener
wrapped in `tcpKeepAliveListener`. -/
def listenTCP (os : OS) (addr : String) : Except Error Listener :=
  match os.ResolveTCPAddr addr with
  | .error err => .error err
  | .ok laddr =>
    match os.ListenTCP laddr with
    | .error err => .error err
    | .ok id => .ok (.tcp id)

/-- `listenTLS`, with `srv.Addr = Addr`: the key pair is loaded, the TCP
listener opened and wrapped by `tls.NewListener`, and the result returned
through the type assertion `tlsListener.(listener)`, which panics when the
listener has no `File` method. -/
def listenTLS (os : OS) (Addr certFile keyFile : String) : Outcome Listener :=
  let addr := if Addr = "" then ":https" else Addr
  match os.LoadX509KeyPair certFile keyFile with
  | some err => .error err
  | none =>
    match listenTCP os addr with
    | .error err => .error err
    | .ok ln =>
      let tlsListener := Listener.tls ln
      if tlsListener.hasFile then .ok tlsListener else .panic

/-- The arguments `forkExec` passes to `os.StartProcess`: program, argument
vector and `os.ProcAttr`; an error when `exec.LookPath`, `os.Getwd` or
`l.File()` fails. -/
def forkExecAttr (os : OS) (g : Vars) (l : Listener) (n : Nat) :
    Except Error (String × List String × ProcAttr) :=
  match os.LookPath n os.arg0 with
  | .error err => .error err
  | .ok progName =>
    match os.Getwd n with
    | .error err => .error err
    | .ok pwd =>
      match os.listenerFile n l with
      | some err => .error err
      | none =>
        let f := File.ofListener l
        let files := [File.Stdin, File.Stdout, File.Stderr, f]
        let fdEnv := g.FDEnvKey ++ "=" ++ Nat.repr (files.length - 1)
        .ok (progName, os.arg0 :: os.args,
          { Dir := pwd, Env := Environ os.envs ++ [fdEnv], Files := files })

/-- `forkExec`: the `n`-th call, on listener `l`. -/
def forkExec (os : OS) (g : Vars) (l : Listener) (n : Nat) : Except Error Proc :=
  match forkExecAttr os g l n with
  | .error err => .error err
  | .ok (progName, argv, attr) => os.StartProcess n progName argv attr

/-- `listenerFromFDEnv`: the listener rebuilt from the inherited descriptor. -/
def listenerFromFDEnv (os : OS) (g : Vars) : Except Error Listener :=
  match getFD os.envs g.FDEnvKey with
  | .error err => .error err
  | .ok fd =>
    match os.fileListener fd with
    | .error err => .error err
    | .ok (.unix addr) =>
      if os.Stat addr then
        match os.Remove addr with
        | some err => .error err
        | none => listenUnix os addr
      else listenUnix os addr
    | .ok (.tcp id) => .ok (.tcp id)

/-- Go's `strings.HasPrefix(s, p)`. -/
def startsWith (s p : String) : Bool := p.toList.isPrefixOf s.toList

/-- The Go slice expression `s[n:]` for an `n` at a character boundary. -/
def sliceFrom (s : String) (n : Nat) : String := String.mk (s.toList.drop n)

/-- How `ListenAndServe` and `ListenAndServeTLS` end: with an error of their
own, in the tail call `srv.supervise(l)` or `srv.Serve(l)`, whose result they
return, or in a panic. -/
inductive Started
  | failed (err : Error)
  | supervise (l : Listener)
  | Serve (l : Listener)
  | panic
deriving DecidableEq, Repr

/-- `(*Server).ListenAndServe`, with `srv.Addr = Addr`. -/
def ListenAndServe (os : OS) (g : Vars) (Addr : String) : Started :=
  let addr := if Addr = "" then ":http" else Addr
  if os.GOOS = "windows" then
    match listenTCP os addr with
    | .error err => .failed err
    | .ok l => .Serve l
  else if IsMaster os.envs g.FDEnvKey then
    match (if startsWith addr "unix:" then listenUnix os (sliceFrom addr "unix:".length)
           else listenTCP os addr) with
    | .error err => .failed err
    | .ok l => .supervise l
  else
    match listenerFromFDEnv os g with
    | .error err => .failed err
    | .ok ln => .Serve ln

/-- `(*Server).ListenAndServeTLS`, with `srv.Addr = Addr`. -/
def ListenAndServeTLS (os : OS) (g : Vars) (Addr certFile keyFile : String) : Started :=
  if IsMaster os.envs g.FDEnvKey then
    match listenTLS os Addr certFile keyFile with
    | .error err => .failed err
    | .panic => .panic
    | .ok l => .supervise l
  else
    match listenerFromFDEnv os g with
    | .error err => .failed err
    | .ok ln => .Serve ln

/-! ## `supervise` -/

/-- What `supervise` does to the outside world, in program order. -/
inductive Event
  | forkExecOk (p : Proc)
  | forkExecErr (err : Error)
  | ServerState (s : State)
  | Notify (sigs : List Signal)
  | recv (sig : Signal)
  | Signal (p : Proc) (sig : Signal)
  | AfterFunc (d : Int) (p : Proc)
  | Kill (p : Proc)
  | Wait (p : Proc)
  | timerStop
  | Stop
  | Close (l : Listener)
deriving DecidableEq, Repr

/-- The statement `if ServerState != nil { ServerState(s) }`. -/
def emit (g : Vars) (s : State) : List Event :=
  if g.ServerState then [.ServerState s] else []

/-- The timer `time.AfterFunc(Timeout, func() { p.Kill() })` between its start
and `timer.Stop()`, which runs when `p.Wait()` has returned.  `time.AfterFunc`
calls the function once the duration has elapsed (at once for a duration that
is zero or negative), so `p.Kill()` runs exactly when `p` has not exited within
`Timeout`. -/
def timerFires (os : OS) (g : Vars) (p : Proc) : List Event :=
  if g.Timeout < (os.exitAfter p : Int) then [.Kill p] else []

/-- A run of `supervise`: the events so far, the worker held in `p` (none
before the first spawn), and the value returned (`none` while `supervise` is
still blocked in `<-c`). -/
structure Run where
  trace : List Event
  tracked : Option Proc
  result : Option (Option Error)
deriving DecidableEq, Repr

/-- The case of `switch sig := <-c; sig` in `supervise` that a signal selects.
Go tries the cases from top to bottom: `case RestartSignal:` comes first, then
`case syscall.SIGINT, ShutdownSignal:`; there is no default case. -/
inductive Case
  | restart
  | shutdown
  | none
deriving DecidableEq, Repr

/-- The case the `switch` of `supervise` takes on `sig`. -/
def switchCase (g : Vars) (sig : Signal) : Case :=
  if sig = g.RestartSignal then .restart
  else if sig = SIGINT ∨ sig = g.ShutdownSignal then .shutdown
  else .none

/-- The `for` loop of `supervise` with `p` the tracked worker, `n` the number
of `forkExec` calls made so far, and the signals that `<-c` yields, in order. -/
def superviseLoop (os : OS) (g : Vars) (l : Listener) : Proc → Nat → List Signal → Run
  | p, _, [] => { trace := [], tracked := some p, result := none }
  | p, n, sig :: rest =>
    match switchCase g sig with
    | .restart =>
      match forkExec os g l n with
      | .error err =>
        { trace := [.recv sig, .forkExecErr err], tracked := some p, result := some (some err) }
      | .ok child =>
        let r := superviseLoop os g l child (n + 1) rest
        { r with trace :=
            [.recv sig, .forkExecOk child, .Signal p g.ShutdownSignal, .AfterFunc g.Timeout p]
              ++ timerFires os g p ++ [.Wait p, .timerStop] ++ emit g .StateRestart ++ r.trace }
    | .shutdown =>
      { trace :=
          [.recv sig, .Stop, .Close l, .Signal p g.ShutdownSignal, .AfterFunc g.Timeout p]
            ++ timerFires os g p ++ [.Wait p, .timerStop] ++ emit g .StateShutdown,
        tracked := some p,
        result := some (os.waitErr p) }
    | .none =>
      let r := superviseLoop os g l p n rest
      { r with trace := .recv sig :: r.trace }

/-- `supervise`, given the signals it receives on its channel. -/
def supervise (os : OS) (g : Vars) (l : Listener) (sigs : List Signal) : Run :=
  match forkExec os g l 0 with
  | .error err => { trace := [.forkExecErr err], tracked := none, result := some (some err) }
  | .ok p =>
    let r := superviseLoop os g l p 1 sigs
    { r with trace :=
        [.forkExecOk p] ++ emit g .StateStart
          ++ [.Notify [SIGINT, g.ShutdownSignal, g.RestartSignal]] ++ r.trace }

/-- The states handed to the `ServerState` hook, in order. -/
def notifications : List Event → List State
  | [] => []
  | .ServerState s :: rest => s :: notifications rest
  | _ :: rest => notifications rest

/-- Whether an event is a call of `forkExec`. -/
def isForkExec : Event → Bool
  | .forkExecOk _ => true
  | .forkExecErr _ => true
  | _ => false

/-- Whether an event is a call of the `ServerState` hook. -/
def isHook : Event → Bool
  | .ServerState _ => true
  | _ => false

/-- The number of restart signals in `sigs` before the first signal that is the
interrupt or the configured shutdown signal without being the configured
restart signal. -/
def restartsBeforeShutdown (g : Vars) (sigs : List Signal) : Nat :=
  ((sigs.takeWhile fun s =>
      !decide ((s = SIGINT ∨ s = g.ShutdownSignal) ∧ s ≠ g.RestartSignal)).filter
    fun s => decide (s = g.RestartSignal)).length

/-! ## Sample values -/

/-- A POSIX process in which every library call succeeds; the `n`-th
`forkExec` starts the worker with pid `100 + n`, and a worker needs one second
to exit after the graceful-shutdown signal. -/
def sampleOS (envs : List String) : OS where
  GOOS := "linux"
  arg0 := "/usr/bin/server"
  args := []
  envs := envs
  LookPath := fun _ name => .ok name
  Getwd := fun _ => .ok "/"
  listenerFile := fun _ _ => none
  StartProcess := fun n _ _ _ => .ok (100 + n)
  ResolveTCPAddr := fun addr => .ok addr
  ListenTCP := fun _ => .ok 0
  ResolveUnixAddr := fun addr => .ok addr
  ListenUnix := fun _ => none
  LoadX509KeyPair := fun _ _ => none
  fileListener := fun fd => .ok (.tcp fd)
  Stat := fun _ => false
  Remove := fun _ => none
  exitAfter := fun _ => 1000000000
  waitErr := fun _ => none

/-- The process of `sampleOS` when the program cannot be found any more from
the second `forkExec` call on. -/
def brokenOS : OS :=
  { sampleOS [] with
    LookPath := fun n name => if n = 0 then .ok name else .error (.other "executable file not found") }

/-! ## Theorems: connection draining -/

section Draining

variable {Conn : Type} [DecidableEq Conn]

theorem connStates_append (v : ServeVars Conn) (a b : List (Conn × ConnState)) :
    connStates v (a ++ b) = (connStates v a).bind fun v1 => connStates v1 b := by
  induction a generalizing v with
  | nil => simp [connStates]
  | cons e a ih =>
    obtain ⟨c, st⟩ := e
    simp only [List.cons_append, connStates]
    cases connState v c st with
    | none => simp
    | some v1 => simpa using ih v1

theorem outstanding_snoc (conn c : Conn) (st : ConnState) (evs : List (Conn × ConnState)) :
    outstanding conn (evs ++ [(c, st)]) =
      if c = conn then
        (match st with
         | .StateActive => true
         | .StateIdle | .StateClosed => false
         | _ => outstanding conn evs)
      else outstanding conn evs := by
  simp [outstanding, List.foldl_append]

/-- The counter never falls below the number of entries, so no event makes the
wait group panic. -/
theorem connState_card_le (v : ServeVars Conn) (c : Conn) (st : ConnState)
    (h : (v.conns.card : Int) ≤ v.wg) :
    ∃ v1, connState v c st = some v1 ∧ (v1.conns.card : Int) ≤ v1.wg := by
  have h0 : (0 : Int) ≤ v.conns.card := Int.ofNat_nonneg _
  cases st with
  | StateActive =>
    have hle : ((insert c v.conns).card : Int) ≤ v.conns.card + 1 := by
      exact_mod_cast Finset.card_insert_le c v.conns
    refine ⟨{ conns := insert c v.conns, wg := v.wg + 1 }, ?_, ?_⟩
    · have : ¬ (v.wg + 1 < 0) := by omega
      simp [connState, wgAdd, this]
    · show ((insert c v.conns).card : Int) ≤ v.wg + 1
      omega
  | StateIdle | StateClosed =>
    by_cases hc : c ∈ v.conns
    all_goals first
      | (have hpos : 0 < v.conns.card := Finset.card_pos.mpr ⟨c, hc⟩
         have hcard : ((v.conns.erase c).card : Int) = v.conns.card - 1 := by
           rw [Finset.card_erase_of_mem hc]; omega
         refine ⟨{ conns := v.conns.erase c, wg := v.wg + -1 }, ?_, ?_⟩
         · have : ¬ (v.wg + -1 < 0) := by omega
           simp [connState, wgDone, wgAdd, hc, this]
         · show ((v.conns.erase c).card : Int) ≤ v.wg + -1
           omega)
      | exact ⟨v, by simp [connState, hc], h⟩
  | StateNew | StateHijacked => exact ⟨v, by simp [connState], h⟩

/-- The invariant of the callback: after the events `pre`, the callback has not
panicked, the set holds exactly the outstanding connections, and its size is
the counter. -/
theorem connStates_inv (pre post : List (Conn × ConnState))
    (h : ActiveOnce (pre ++ post)) :
    ∃ v, connStates (ServeVars.init Conn) pre = some v ∧ (v.conns.card : Int) = v.wg ∧
      ∀ c, c ∈ v.conns ↔ outstanding c pre = true := by
  induction pre using List.reverseRecOn generalizing post with
  | nil => exact ⟨ServeVars.init Conn, rfl, by simp [ServeVars.init], by simp [ServeVars.init, outstanding]⟩
  | append_singleton pre e ih =>
    obtain ⟨c, st⟩ := e
    have h1 : ActiveOnce (pre ++ ((c, st) :: post)) := by simpa using h
    obtain ⟨v, hv, hcard, hmem⟩ := ih ((c, st) :: post) h1
    have h0 : (0 : Int) ≤ v.conns.card := Int.ofNat_nonneg _
    rw [connStates_append, hv]
    simp only [Option.some_bind, connStates]
    cases st with
    | StateActive =>
      have hout : outstanding c pre = false := h1 pre c post rfl
      have hc : c ∉ v.conns := by
        intro hin
        rw [(hmem c).mp hin] at hout
        exact Bool.noConfusion hout
      refine ⟨{ conns := insert c v.conns, wg := v.wg + 1 }, ?_, ?_, ?_⟩
      · have : ¬ (v.wg + 1 < 0) := by omega
        simp [connState, wgAdd, this]
      · show ((insert c v.conns).card : Int) = v.wg + 1
        rw [Finset.card_insert_of_not_mem hc]
        push_cast
        omega
      · intro c1
        rw [outstanding_snoc]
        by_cases hcc : c = c1
        · simp [hcc]
        · have hcc1 : c1 ≠ c := fun hh => hcc hh.symm
          simp [hcc, hcc1, hmem c1]
    | StateIdle | StateClosed =>
      by_cases hc : c ∈ v.conns
      all_goals first
        | (have hpos : 0 < v.conns.card := Finset.card_pos.mpr ⟨c, hc⟩
           refine ⟨{ conns := v.conns.erase c, wg := v.wg + -1 }, ?_, ?_, ?_⟩
           · have : ¬ (v.wg + -1 < 0) := by omega
             simp [connState, wgDone, wgAdd, hc, this]
           · show ((v.conns.erase c).card : Int) = v.wg + -1
             rw [Finset.card_erase_of_mem hc]
             omega
           · intro c1
             rw [outstanding_snoc]
             by_cases hcc : c = c1
             · simp [hcc]
             · have hcc1 : c1 ≠ c := fun hh => hcc hh.symm
               simp [hcc, hcc1, hmem c1])
        | (refine ⟨v, by simp [connState, hc], hcard, ?_⟩
           intro c1
           rw [outstanding_snoc]
           by_cases hcc : c = c1
           · subst hcc
             simp [hc]
           · simp [hcc, hmem c1])
    | StateNew | StateHijacked =>
      refine ⟨v, by simp [connState], hcard, ?_⟩
      intro c1
      rw [outstanding_snoc]
      by_cases hcc : c = c1
      · simp [hcc, hmem c1]
      · simp [hcc, hmem c1]

/-- C1: for every sequence of events that `net/http` delivers to the callback
(it reports no connection active while that connection is still outstanding:
`ActiveOnce`), starting from the empty set and a zero counter, after each event
(after every initial part `pre` of the sequence) the callback has run without
panic and the number of entries of `conns` equals the wait-group counter. -/
theorem connStates_card_eq_wg (pre post : List (Conn × ConnState))
    (h : ActiveOnce (pre ++ post)) :
    ∃ v, connStates (ServeVars.init Conn) pre = some v ∧ (v.conns.card : Int) = v.wg := by
  obtain ⟨v, hv, hcard, _⟩ := connStates_inv pre post h
  exact ⟨v, hv, hcard⟩

/-- A connection that goes active, idle and active again: one entry, counter one. -/
theorem connStates_card_eq_wg_witness :
    ∃ v, connStates (ServeVars.init Nat)
        [(7, .StateActive), (7, .StateIdle), (7, .StateActive)] = some v ∧
      (v.conns.card : Int) = v.wg :=
  connStates_card_eq_wg [(7, .StateActive), (7, .StateIdle), (7, .StateActive)] [] (by
    intro pre conn post h
    match pre with
    | [] => rfl
    | [a] => simp at h
    | [a, b] =>
      simp at h
      obtain ⟨rfl, rfl, h3, _⟩ := h
      subst h3
      decide
    | a :: b :: c :: rest => simp at h)

/-- C10: of two Idle or Closed events for `c` delivered in a row the second
changes nothing: the state is the one the first delivery leaves; such an event
for a connection that is not in the set changes nothing at all; and a counter
that is at least the number of entries stays so (the event does not panic). -/
theorem connState_idle_closed_idempotent (v : ServeVars Conn) (c : Conn) (st1 st2 : ConnState)
    (hst1 : st1 = .StateIdle ∨ st1 = .StateClosed)
    (hst2 : st2 = .StateIdle ∨ st2 = .StateClosed) :
    ((connState v c st1).bind fun v1 => connState v1 c st2) = connState v c st1 ∧
    (c ∉ v.conns → connState v c st1 = some v) ∧
    ((v.conns.card : Int) ≤ v.wg →
      ∃ v1, connState v c st1 = some v1 ∧ (v1.conns.card : Int) ≤ v1.wg) := by
  refine ⟨?_, ?_, connState_card_le v c st1⟩
  · rcases hst1 with rfl | rfl <;> rcases hst2 with rfl | rfl
    all_goals
      by_cases hc : c ∈ v.conns
      · cases hw : wgDone v.wg with
        | none => simp [connState, hc, hw]
        | some w => simp [connState, hc, hw]
      · simp [connState, hc]
  · intro hc
    rcases hst1 with rfl | rfl <;> simp [connState, hc]

/-- The only active connection goes idle and is then closed: the second event
finds it gone and leaves the empty set and the zero counter. -/
theorem connState_idle_closed_idempotent_witness :
    ((connState ({ conns := {7}, wg := 1 } : ServeVars Nat) 7 .StateIdle).bind
        fun v1 => connState v1 7 .StateClosed) =
      connState ({ conns := {7}, wg := 1 } : ServeVars Nat) 7 .StateIdle :=
  (connState_idle_closed_idempotent ({ conns := {7}, wg := 1 } : ServeVars Nat) 7
    .StateIdle .StateClosed (Or.inl rfl) (Or.inr rfl)).1

end Draining

/-! ## Theorems: the result of `Serve` -/

/-- C2 as stated fails on Windows: the accept failure of a closed listener
whose operation is `AcceptEx`, not `accept`, is turned into `nil` too. -/
theorem Serve_AcceptEx_windows :
    Serve "windows" ([] : List (Nat × ConnState)) []
      (.opError "AcceptEx" "tcp" "use of closed network connection") = some none := by
  decide

/-- C2, amended: whenever the drain wait ends, `Serve` returns `nil` if the
error of the accept loop is a `net.OpError` whose inner message is "use of
closed network connection" and whose operation is "accept" (or "AcceptEx" when
running on Windows), and returns the error itself for every other error. -/
theorem Serve_accept_error {Conn : Type} [DecidableEq Conn] (goos : String)
    (during draining : List (Conn × ConnState)) (e : Error)
    (hret : (Serve goos during draining e).isSome = true) :
    (∀ op net, (op = "accept" ∨ (goos = "windows" ∧ op = "AcceptEx")) →
        e = .opError op net "use of closed network connection" →
        Serve goos during draining e = some none) ∧
    ((¬ ∃ op net, (op = "accept" ∨ (goos = "windows" ∧ op = "AcceptEx")) ∧
          e = .opError op net "use of closed network connection") →
        Serve goos during draining e = some (some e)) := by
  unfold Serve at hret ⊢
  cases hv : connStates (ServeVars.init Conn) during with
  | none => simp [hv] at hret
  | some v =>
    simp only [hv] at hret ⊢
    by_cases hw : wgWait v draining = true
    · simp only [hw, if_true]
      constructor
      · rintro op net hop rfl
        rcases hop with rfl | ⟨hg, rfl⟩
        · simp [acceptResult]
        · simp [acceptResult, hg]
      · intro hne
        cases e with
        | opError op net msg =>
          simp only [acceptResult]
          by_cases hcl : (if goos = "windows" ∧ op = "AcceptEx" then "accept" else op) = "accept" ∧
              msg = "use of closed network connection"
          · exfalso
            apply hne
            obtain ⟨hop, rfl⟩ := hcl
            refine ⟨op, net, ?_, rfl⟩
            by_cases hwin : goos = "windows" ∧ op = "AcceptEx"
            · exact Or.inr hwin
            · rw [if_neg hwin] at hop
              exact Or.inl hop
          · rw [if_neg hcl]
        | errNotForked => rfl
        | numError fn num err => rfl
        | other msg => rfl
    · simp [hw] at hret

/-- One connection is active when the listener is closed; once it has closed,
`Serve` returns `nil`. -/
theorem Serve_accept_error_witness :
    Serve "linux" [((1 : Nat), ConnState.StateActive)] [(1, .StateClosed)]
      (.opError "accept" "tcp" "use of closed network connection") = some none :=
  (Serve_accept_error "linux" [((1 : Nat), ConnState.StateActive)] [(1, .StateClosed)]
    (.opError "accept" "tcp" "use of closed network connection") (by decide)).1
    "accept" "tcp" (Or.inl rfl) rfl

/-! ## Theorems: role detection and descriptor handoff -/

theorem cutEnv_key_value (k v : List Char) (hk : '=' ∉ k) :
    cutEnv (k ++ '=' :: v) = some (k, v) := by
  induction k with
  | nil => simp [cutEnv]
  | cons c k ih =>
    have hc : c ≠ '=' := fun h => hk (by simp [h])
    have hk1 : '=' ∉ k := fun h => hk (by simp [h])
    simp [cutEnv, hc, ih hk1]

theorem envKey_assign (key value : String) (hk : '=' ∉ key.toList) :
    envKey (key ++ "=" ++ value) = some key := by
  have h : (key ++ "=" ++ value).toList = key.toList ++ '=' :: value.toList := by
    simp [String.toList]
  unfold envKey
  rw [h, cutEnv_key_value _ _ hk]
  rfl

theorem envValue_assign (key value : String) (hk : '=' ∉ key.toList) :
    envValue (key ++ "=" ++ value) = value := by
  have h : (key ++ "=" ++ value).toList = key.toList ++ '=' :: value.toList := by
    simp [String.toList]
  unfold envValue
  rw [h, cutEnv_key_value _ _ hk]
  rfl

theorem mem_copyenv (seen envs : List String) (s : String) (hs : s ∈ copyenv seen envs) :
    s = "" ∨ s ∈ envs := by
  induction envs generalizing seen with
  | nil => simp [copyenv] at hs
  | cons e envs ih =>
    unfold copyenv at hs
    cases hk : envKey e with
    | none =>
      simp only [hk, List.mem_cons] at hs
      rcases hs with rfl | hs
      · simp
      · rcases ih _ hs with h | h
        · exact Or.inl h
        · exact Or.inr (List.mem_cons_of_mem _ h)
    | some k =>
      simp only [hk] at hs
      split at hs
      · simp only [List.mem_cons] at hs
        rcases hs with rfl | hs
        · exact Or.inl rfl
        · rcases ih _ hs with h | h
          · exact Or.inl h
          · exact Or.inr (List.mem_cons_of_mem _ h)
      · simp only [List.mem_cons] at hs
        rcases hs with rfl | hs
        · simp
        · rcases ih _ hs with h | h
          · exact Or.inl h
          · exact Or.inr (List.mem_cons_of_mem _ h)

theorem mem_Environ (envs : List String) (s : String) (hs : s ∈ Environ envs) : s ∈ envs := by
  unfold Environ at hs
  rw [List.mem_filter] at hs
  rcases mem_copyenv _ _ _ hs.1 with h | h
  · simp [h] at hs
  · exact h

theorem lookupEnv_setFirst (envs : List String) (k kv key : String)
    (hkv : envKey kv = some k) (hne : k ≠ key) :
    lookupEnv (setFirst k kv envs) key = lookupEnv envs key := by
  unfold lookupEnv
  by_cases hkey : key = ""
  · simp [hkey]
  · simp only [hkey, if_false]
    congr 1
    induction envs with
    | nil => simp [setFirst, hkv, hne]
    | cons e envs ih =>
      unfold setFirst
      by_cases he : envKey e = some k
      · have he1 : envKey e ≠ some key := by
          rw [he]; intro h; exact hne (Option.some.inj h)
        simp [he, hkv, hne, he1]
      · simp only [he, if_false, List.find?_cons]
        rw [ih]

theorem IsMaster_iff (envs : List String) (key : String) :
    IsMaster envs key = true ↔ ¬ ∃ v, lookupEnv envs key = some v ∧ v ≠ "" := by
  unfold IsMaster Getenv
  cases h : lookupEnv envs key with
  | none => simp
  | some v => simp

/-- C6 as stated fails: the handoff variable can be present and the process
still be Master, namely when its value is the empty string. -/
theorem IsWorker_present_empty :
    lookupEnv ["MIYABI_FD="] "MIYABI_FD" = some "" ∧
      IsWorker ["MIYABI_FD="] "MIYABI_FD" = false ∧
      IsMaster ["MIYABI_FD="] "MIYABI_FD" = true := by
  decide

/-- C6, amended: for every environment and every `FDEnvKey`, `IsWorker()` is
true if and only if the variable named `FDEnvKey` is present with a non-empty
value, `IsMaster()` is true if and only if it is absent or empty, exactly one of
the two holds, and setting any other variable does not change the role. -/
theorem IsWorker_iff (envs : List String) (FDEnvKey : String) :
    (IsWorker envs FDEnvKey = true ↔ ∃ v, lookupEnv envs FDEnvKey = some v ∧ v ≠ "") ∧
    (IsMaster envs FDEnvKey = true ↔
      (lookupEnv envs FDEnvKey = none ∨ lookupEnv envs FDEnvKey = some "")) ∧
    ((IsMaster envs FDEnvKey = true ∨ IsWorker envs FDEnvKey = true) ∧
      ¬ (IsMaster envs FDEnvKey = true ∧ IsWorker envs FDEnvKey = true)) ∧
    (∀ key value envs1, key ≠ FDEnvKey → Setenv envs key value = .ok envs1 →
      IsMaster envs1 FDEnvKey = IsMaster envs FDEnvKey ∧
      IsWorker envs1 FDEnvKey = IsWorker envs FDEnvKey) := by
  refine ⟨?_, ?_, ?_, ?_⟩
  · have h := IsMaster_iff envs FDEnvKey
    unfold IsWorker
    constructor
    · intro hw
      by_contra hne
      simp [h.mpr hne] at hw
    · intro hex
      have hm : ¬ IsMaster envs FDEnvKey = true := fun hm => (h.mp hm) hex
      simpa using hm
  · unfold IsMaster Getenv
    cases h : lookupEnv envs FDEnvKey with
    | none => simp
    | some v => simp
  · unfold IsWorker
    cases IsMaster envs FDEnvKey <;> simp
  · intro key value envs1 hne hset
    unfold Setenv at hset
    split at hset
    · exact Except.noConfusion hset
    · rename_i hok
      have hk : '=' ∉ key.toList := fun h => hok (Or.inr (Or.inl h))
      have henv : envs1 = setFirst key (key ++ "=" ++ value) envs :=
        (Except.ok.inj hset).symm
      have hl : lookupEnv envs1 FDEnvKey = lookupEnv envs FDEnvKey := by
        rw [henv]
        exact lookupEnv_setFirst envs key _ FDEnvKey (envKey_assign key value hk) hne
      simp [IsWorker, IsMaster, Getenv, hl]

/-- Setting `UNKNOWN_KEY=1`, as the test `TestIsMaster` does, leaves a worker a
worker. -/
theorem IsWorker_iff_witness :
    Setenv ["MIYABI_FD=3"] "UNKNOWN_KEY" "1" = .ok ["MIYABI_FD=3", "UNKNOWN_KEY=1"] ∧
      IsWorker ["MIYABI_FD=3", "UNKNOWN_KEY=1"] "MIYABI_FD" = IsWorker ["MIYABI_FD=3"] "MIYABI_FD" :=
  ⟨by decide,
   ((IsWorker_iff ["MIYABI_FD=3"] "MIYABI_FD").2.2.2 "UNKNOWN_KEY" "1" _
      (by decide) (by decide)).2⟩

theorem Atoi_error (v : String) (e : Error) (h : Atoi v = .error e) :
    ∃ kind, e = .numError "Atoi" v kind := by
  unfold Atoi at h
  simp only at h
  repeat' split at h
  all_goals first
    | exact ⟨_, (Except.error.inj h).symm⟩
    | exact Except.noConfusion h

/-- The type assertion at the end of `listenTLS` never succeeds: the call
returns an error or panics. -/
theorem listenTLS_not_ok (os : OS) (Addr certFile keyFile : String) (l : Listener) :
    listenTLS os Addr certFile keyFile ≠ .ok l := by
  unfold listenTLS
  simp only
  split
  · intro h; cases h
  · split
    · intro h; cases h
    · simp [Listener.hasFile]

/-- C7 as stated fails: the empty string is a value the variable can be set
to, `strconv.Atoi` rejects it, and yet the process starts as Master and
`ListenAndServe` goes on to supervise. -/
theorem ListenAndServe_empty_value :
    lookupEnv (sampleOS ["MIYABI_FD="]).envs "MIYABI_FD" = some "" ∧
      Atoi "" = .error (.numError "Atoi" "" .ErrSyntax) ∧
      ListenAndServe (sampleOS ["MIYABI_FD="]) {} "" = .supervise (.tcp 0) := by
  decide

/-- C7, amended: for every non-empty value of the handoff variable that
`strconv.Atoi` rejects, `getFD` fails with the `Atoi` error (a
`*strconv.NumError`, not `errNotForked`), and `ListenAndServeTLS` and, off
Windows, `ListenAndServe` return that error without reaching `supervise` or
`Serve`; whereas with the variable missing the process is Master and `getFD` is
not called: both functions take their Master branch. -/
theorem ListenAndServe_parse_error (os : OS) (g : Vars) :
    (∀ v e, lookupEnv os.envs g.FDEnvKey = some v → v ≠ "" → Atoi v = .error e →
      (∃ kind, e = .numError "Atoi" v kind) ∧
      e ≠ .errNotForked ∧
      getFD os.envs g.FDEnvKey = .error e ∧
      (os.GOOS ≠ "windows" → ∀ Addr, ListenAndServe os g Addr = .failed e) ∧
      (∀ Addr certFile keyFile, ListenAndServeTLS os g Addr certFile keyFile = .failed e)) ∧
    (lookupEnv os.envs g.FDEnvKey = none →
      IsMaster os.envs g.FDEnvKey = true ∧
      (os.GOOS ≠ "windows" → ∀ Addr,
        ListenAndServe os g Addr =
          match (if startsWith (if Addr = "" then ":http" else Addr) "unix:" then
              listenUnix os (sliceFrom (if Addr = "" then ":http" else Addr) "unix:".length)
            else listenTCP os (if Addr = "" then ":http" else Addr)) with
          | .error err => .failed err
          | .ok l => .supervise l) ∧
      (∀ Addr certFile keyFile,
        ListenAndServeTLS os g Addr certFile keyFile =
          match listenTLS os Addr certFile keyFile with
          | .error err => .failed err
          | .panic => .panic
          | .ok l => .supervise l)) := by
  constructor
  · intro v e hset hv hparse
    have hget : Getenv os.envs g.FDEnvKey = v := by simp [Getenv, hset]
    have hfd : getFD os.envs g.FDEnvKey = .error e := by
      simp [getFD, hget, hv, hparse]
    have hm : IsMaster os.envs g.FDEnvKey = false := by
      simp [IsMaster, hget, hv]
    obtain ⟨kind, hkind⟩ := Atoi_error v e hparse
    refine ⟨⟨kind, hkind⟩, by simp [hkind], hfd, ?_, ?_⟩
    · intro hgoos Addr
      simp [ListenAndServe, hgoos, hm, listenerFromFDEnv, hfd]
    · intro Addr certFile keyFile
      simp [ListenAndServeTLS, hm, listenerFromFDEnv, hfd]
  · intro hnone
    have hm : IsMaster os.envs g.FDEnvKey = true := by
      simp [IsMaster, Getenv, hnone]
    refine ⟨hm, ?_, ?_⟩
    · intro hgoos Addr
      simp only [ListenAndServe, hgoos, hm, if_false, if_true]
    · intro Addr certFile keyFile
      simp only [ListenAndServeTLS, hm, if_true]

/-- The value `abc` of the test-style environment `MIYABI_FD=abc` makes the
start fail with the `Atoi` syntax error. -/
theorem ListenAndServe_parse_error_witness :
    lookupEnv (sampleOS ["MIYABI_FD=abc"]).envs "MIYABI_FD" = some "abc" ∧
      Atoi "abc" = .error (.numError "Atoi" "abc" .ErrSyntax) ∧
      ListenAndServe (sampleOS ["MIYABI_FD=abc"]) {} "" =
        .failed (.numError "Atoi" "abc" .ErrSyntax) :=
  ⟨by decide, by decide,
   ((ListenAndServe_parse_error (sampleOS ["MIYABI_FD=abc"]) {}).1 "abc" _
      (by decide) (by decide) (by decide)).2.2.2.1 (by decide) ""⟩

/-- A digit run past `2^64` is a range error whatever follows it, a digit run
below it followed by a letter a syntax error. -/
theorem Atoi_samples :
    Atoi "99999999999999999999abc" = .error (.numError "Atoi" "99999999999999999999abc" .ErrRange) ∧
      Atoi "9223372036854775808x" = .error (.numError "Atoi" "9223372036854775808x" .ErrSyntax) ∧
      Atoi "9223372036854775808" = .error (.numError "Atoi" "9223372036854775808" .ErrRange) ∧
      Atoi "-9223372036854775808" = .ok (-9223372036854775808) ∧
      Atoi "+3" = .ok 3 ∧ Atoi "-" = .error (.numError "Atoi" "-" .ErrSyntax) := by
  decide

/-- C8 as stated fails: a Master whose environment holds the variable with an
empty value hands its child both `MIYABI_FD=` and `MIYABI_FD=3`; the first
mention counts, so the child is not a Worker and `getFD` fails. -/
theorem forkExec_handoff_empty_value :
    IsMaster (sampleOS ["MIYABI_FD="]).envs "MIYABI_FD" = true ∧
      (forkExecAttr (sampleOS ["MIYABI_FD="]) {} (.tcp 0) 0).map (fun a => a.2.2.Env) =
        .ok ["MIYABI_FD=", "MIYABI_FD=3"] ∧
      IsWorker ["MIYABI_FD=", "MIYABI_FD=3"] "MIYABI_FD" = false ∧
      getFD ["MIYABI_FD=", "MIYABI_FD=3"] "MIYABI_FD" = .error .errNotForked := by
  decide

/-- C8, amended: for every `FDEnvKey` that is non-empty and holds no `=`, and
every environment of the parent in which that variable is absent, the
environment and descriptor list `forkExec` passes to `os.StartProcess` make the
child a Worker whose `getFD` returns 3 without error, the index at which the
listener's file sits, directly after stdin, stdout and stderr at 0, 1, 2. -/
theorem forkExec_handoff (os : OS) (g : Vars) (l : Listener) (n : Nat)
    (progName : String) (argv : List String) (attr : ProcAttr)
    (hfork : forkExecAttr os g l n = .ok (progName, argv, attr))
    (habsent : lookupEnv os.envs g.FDEnvKey = none)
    (hkey : g.FDEnvKey ≠ "") (heq : '=' ∉ g.FDEnvKey.toList) :
    IsWorker attr.Env g.FDEnvKey = true ∧
    getFD attr.Env g.FDEnvKey = .ok 3 ∧
    attr.Files.get? 3 = some (.ofListener l) ∧
    attr.Files.take 3 = [.Stdin, .Stdout, .Stderr] := by
  unfold forkExecAttr at hfork
  split at hfork
  · exact Except.noConfusion hfork
  · split at hfork
    · exact Except.noConfusion hfork
    · split at hfork
      · exact Except.noConfusion hfork
      · have hattr := (Prod.mk.inj (Prod.mk.inj (Except.ok.inj hfork)).2).2
        subst hattr
        have hrepr : Nat.repr ([File.Stdin, File.Stdout, File.Stderr, File.ofListener l].length - 1)
            = "3" := by
          show Nat.repr 3 = "3"
          decide
        have hnone : (Environ os.envs).find? (fun s => envKey s = some g.FDEnvKey) = none := by
          rw [List.find?_eq_none]
          intro s hs hk
          have hs1 := mem_Environ _ _ hs
          unfold lookupEnv at habsent
          simp only [hkey, if_false, Option.map_eq_none', List.find?_eq_none] at habsent
          exact habsent s hs1 hk
        have hlook : lookupEnv (Environ os.envs ++ [g.FDEnvKey ++ "=" ++ "3"]) g.FDEnvKey
            = some "3" := by
          unfold lookupEnv
          simp only [hkey, if_false, List.find?_append, hnone, Option.none_or]
          simp [List.find?, envKey_assign _ _ heq, envValue_assign _ _ heq]
        have hget : Getenv (Environ os.envs ++ [g.FDEnvKey ++ "=" ++ "3"]) g.FDEnvKey = "3" := by
          simp [Getenv, hlook]
        have hatoi : Atoi "3" = .ok 3 := by decide
        simp only [hrepr]
        refine ⟨?_, ?_, rfl, rfl⟩
        · simp [IsWorker, IsMaster, hget]
        · have h3 : ("3" : String) ≠ "" := by decide
          have hu : uintptr 3 = 3 := by decide
          simp [getFD, hget, h3, hatoi, hu]

/-- A Master with an ordinary environment hands over a working descriptor index. -/
theorem forkExec_handoff_witness :
    IsWorker ["PATH=/bin", "MIYABI_FD=3"] "MIYABI_FD" = true ∧
      getFD ["PATH=/bin", "MIYABI_FD=3"] "MIYABI_FD" = .ok 3 :=
  have h := forkExec_handoff (sampleOS ["PATH=/bin"]) {} (.tcp 0) 0 "/usr/bin/server"
    ["/usr/bin/server"]
    { Dir := "/", Env := ["PATH=/bin", "MIYABI_FD=3"],
      Files := [.Stdin, .Stdout, .Stderr, .ofListener (.tcp 0)] }
    (by decide) (by decide) (by decide) (by decide)
  ⟨h.1, h.2.1⟩

/-! ## Theorems: the supervisor -/

theorem switchCase_restart (g : Vars) : switchCase g g.RestartSignal = .restart := by
  simp [switchCase]

theorem switchCase_restart_iff (g : Vars) (sig : Signal) :
    switchCase g sig = .restart ↔ sig = g.RestartSignal := by
  unfold switchCase
  by_cases h1 : sig = g.RestartSignal
  · simp [h1]
  · by_cases h2 : sig = SIGINT ∨ sig = g.ShutdownSignal
    · simp [h1, h2]
    · simp [h1, h2]

theorem switchCase_shutdown_iff (g : Vars) (sig : Signal) :
    switchCase g sig = .shutdown ↔
      (sig = SIGINT ∨ sig = g.ShutdownSignal) ∧ sig ≠ g.RestartSignal := by
  unfold switchCase
  by_cases h1 : sig = g.RestartSignal
  · simp [h1]
  · by_cases h2 : sig = SIGINT ∨ sig = g.ShutdownSignal
    · simp [h1, h2]
    · simp [h1, h2]

/-- C3, the code at the failing input: with `Timeout` zero and a worker that
needs one second to exit, `p.Kill()` runs on the shutdown path and on the
restart path, although the comment on `Timeout` says that a zero value
disables the timeout. -/
theorem supervise_zero_timeout_kills :
    (supervise (sampleOS []) { Timeout := 0 } (.tcp 0) [SIGTERM]).trace =
      [.forkExecOk 100, .Notify [SIGINT, SIGTERM, SIGHUP], .recv SIGTERM, .Stop, .Close (.tcp 0),
        .Signal 100 SIGTERM, .AfterFunc 0 100, .Kill 100, .Wait 100, .timerStop] ∧
    (supervise (sampleOS []) { Timeout := 0 } (.tcp 0) [SIGHUP]).trace =
      [.forkExecOk 100, .Notify [SIGINT, SIGTERM, SIGHUP], .recv SIGHUP, .forkExecOk 101,
        .Signal 100 SIGTERM, .AfterFunc 0 100, .Kill 100, .Wait 100, .timerStop] := by
  decide

/-- C4: on a restart signal the replacement is spawned first.  If `forkExec`
fails, the loop returns that error having done nothing else: no signal, no
timer, no kill, no `Restart` notification, and `p` is still the tracked worker.
If it succeeds, the old worker `p` is signalled and put under the kill timer
after the spawn, and the child becomes the tracked worker of the next round. -/
theorem supervise_restart_spawns_first (os : OS) (g : Vars) (l : Listener) (p : Proc) (n : Nat)
    (rest : List Signal) :
    (∀ err, forkExec os g l n = .error err →
      superviseLoop os g l p n (g.RestartSignal :: rest) =
        { trace := [.recv g.RestartSignal, .forkExecErr err],
          tracked := some p,
          result := some (some err) }) ∧
    (∀ child, forkExec os g l n = .ok child →
      superviseLoop os g l p n (g.RestartSignal :: rest) =
        { trace :=
            [.recv g.RestartSignal, .forkExecOk child, .Signal p g.ShutdownSignal,
              .AfterFunc g.Timeout p]
              ++ timerFires os g p ++ [.Wait p, .timerStop] ++ emit g .StateRestart
              ++ (superviseLoop os g l child (n + 1) rest).trace,
          tracked := (superviseLoop os g l child (n + 1) rest).tracked,
          result := (superviseLoop os g l child (n + 1) rest).result }) := by
  constructor
  · intro err herr
    simp [superviseLoop, switchCase_restart, herr]
  · intro child hchild
    simp [superviseLoop, switchCase_restart, hchild]

/-- With the program gone after the first spawn, a hangup leaves worker 100
alone and returns the spawn error. -/
theorem supervise_restart_spawns_first_witness :
    forkExec brokenOS {} (.tcp 0) 1 = .error (.other "executable file not found") ∧
      superviseLoop brokenOS {} (.tcp 0) 100 1 [SIGHUP] =
        { trace := [.recv SIGHUP, .forkExecErr (.other "executable file not found")],
          tracked := some 100,
          result := some (some (.other "executable file not found")) } :=
  ⟨by decide,
   (supervise_restart_spawns_first brokenOS {} (.tcp 0) 100 1 []).1 _ (by decide)⟩

/-- C5 as stated fails: with `ShutdownSignal` set to the signal that is also
the `RestartSignal`, the supervisor that receives the configured shutdown
signal restarts the worker; it neither closes the listener nor returns. -/
theorem supervise_shutdown_signal_restarts :
    supervise (sampleOS []) { ShutdownSignal := SIGHUP } (.tcp 0) [SIGHUP] =
      { trace := [.forkExecOk 100, .Notify [SIGINT, SIGHUP, SIGHUP], .recv SIGHUP,
          .forkExecOk 101, .Signal 100 SIGHUP, .AfterFunc 180000000000 100, .Wait 100,
          .timerStop],
        tracked := some 101,
        result := none } := by
  decide

/-- C5, amended: for every setting of the tunables, a received interrupt or
configured shutdown signal that is not also the configured restart signal
takes the shutdown path and ends `supervise`: signal delivery is stopped, the
listener closed, the tracked worker sent `ShutdownSignal`, put under the timer
and waited for, `Shutdown` emitted, and the error of that wait returned;
and the restart path (a call of `forkExec`) is taken exactly when the received
signal is the configured restart signal. -/
theorem supervise_shutdown_path (os : OS) (g : Vars) (l : Listener) (p : Proc) (n : Nat)
    (sig : Signal) (rest : List Signal) :
    ((sig = SIGINT ∨ sig = g.ShutdownSignal) → sig ≠ g.RestartSignal →
      superviseLoop os g l p n (sig :: rest) =
        { trace :=
            [.recv sig, .Stop, .Close l, .Signal p g.ShutdownSignal, .AfterFunc g.Timeout p]
              ++ timerFires os g p ++ [.Wait p, .timerStop] ++ emit g .StateShutdown,
          tracked := some p,
          result := some (os.waitErr p) }) ∧
    ((∃ e, (superviseLoop os g l p n (sig :: rest)).trace.get? 1 = some e ∧ isForkExec e = true)
      ↔ sig = g.RestartSignal) := by
  constructor
  · intro h1 h2
    have hc : switchCase g sig = .shutdown := (switchCase_shutdown_iff g sig).mpr ⟨h1, h2⟩
    simp [superviseLoop, hc]
  · constructor
    · rintro ⟨e, he, hfe⟩
      by_contra hne
      by_cases hs : sig = SIGINT ∨ sig = g.ShutdownSignal
      · have hc : switchCase g sig = .shutdown := (switchCase_shutdown_iff g sig).mpr ⟨hs, hne⟩
        simp [superviseLoop, hc] at he
        subst he
        simp [isForkExec] at hfe
      · have hc : switchCase g sig = .none := by simp [switchCase, hne, hs]
        cases rest with
        | nil => simp [superviseLoop, hc] at he
        | cons s2 rest =>
          simp only [superviseLoop, hc] at he
          revert he hfe
          cases switchCase g s2 with
          | restart =>
            cases forkExec os g l n with
            | error err => intro hfe he; simp at he; subst he; simp [isForkExec] at hfe
            | ok child => intro hfe he; simp at he; subst he; simp [isForkExec] at hfe
          | shutdown => intro hfe he; simp at he; subst he; simp [isForkExec] at hfe
          | none => intro hfe he; simp at he; subst he; simp [isForkExec] at hfe
    · rintro rfl
      cases hf : forkExec os g l n with
      | error err =>
        exact ⟨.forkExecErr err, by simp [superviseLoop, switchCase_restart, hf], rfl⟩
      | ok child =>
        exact ⟨.forkExecOk child, by simp [superviseLoop, switchCase_restart, hf], rfl⟩

/-- The default terminate signal at worker 100 takes the shutdown path. -/
theorem supervise_shutdown_path_witness :
    superviseLoop (sampleOS []) { ServerState := true } (.tcp 0) 100 1 [SIGTERM, SIGHUP] =
      { trace := [.recv SIGTERM, .Stop, .Close (.tcp 0), .Signal 100 SIGTERM,
          .AfterFunc 180000000000 100, .Wait 100, .timerStop, .ServerState .StateShutdown],
        tracked := some 100,
        result := some none } :=
  (supervise_shutdown_path (sampleOS []) { ServerState := true } (.tcp 0) 100 1 SIGTERM
    [SIGHUP]).1 (by decide) (by decide)

theorem notifications_append (a b : List Event) :
    notifications (a ++ b) = notifications a ++ notifications b := by
  induction a with
  | nil => rfl
  | cons e a ih => cases e <;> simp [notifications, ih]

theorem notifications_timerFires (os : OS) (g : Vars) (p : Proc) :
    notifications (timerFires os g p) = [] := by
  unfold timerFires
  split <;> rfl

theorem filter_timerFires (os : OS) (g : Vars) (p : Proc) :
    (timerFires os g p).filter (fun e => !isHook e) = timerFires os g p := by
  unfold timerFires
  split <;> rfl

theorem filter_emit (g : Vars) (s : State) :
    (emit g s).filter (fun e => !isHook e) = [] := by
  unfold emit
  split <;> rfl

/-- The loop of `supervise` when every spawn succeeds, the hook is set and a
signal taking the shutdown case is among those received. -/
theorem superviseLoop_notifications (os : OS) (g : Vars) (l : Listener)
    (hspawn : ∀ m, ∃ q, forkExec os g l m = .ok q) (hset : g.ServerState = true) :
    ∀ (sigs : List Signal) (p : Proc) (n : Nat), (∃ s ∈ sigs, switchCase g s = .shutdown) →
      notifications (superviseLoop os g l p n sigs).trace =
          List.replicate (restartsBeforeShutdown g sigs) State.StateRestart ++ [.StateShutdown] ∧
        (superviseLoop os g l p n sigs).result.isSome = true ∧
        ∃ pre, (superviseLoop os g l p n sigs).trace = pre ++ [.ServerState .StateShutdown] := by
  intro sigs
  induction sigs with
  | nil => intro p n h; simp at h
  | cons sig rest ih =>
    intro p n hex
    cases hc : switchCase g sig with
    | restart =>
      obtain ⟨q, hq⟩ := hspawn n
      have hrest : ∃ s ∈ rest, switchCase g s = .shutdown := by
        obtain ⟨s, hs, hsc⟩ := hex
        rcases List.mem_cons.mp hs with rfl | hs
        · rw [hc] at hsc; exact Case.noConfusion hsc
        · exact ⟨s, hs, hsc⟩
      obtain ⟨h1, h2, pre, h3⟩ := ih q (n + 1) hrest
      have hsig : sig = g.RestartSignal := (switchCase_restart_iff g sig).mp hc
      have hk : restartsBeforeShutdown g (sig :: rest) = restartsBeforeShutdown g rest + 1 := by
        simp [restartsBeforeShutdown, List.takeWhile, hsig]
      refine ⟨?_, ?_, ?_⟩
      · simp only [superviseLoop, hc, hq, notifications_append, notifications_timerFires, h1, hk]
        simp [notifications, emit, hset, List.replicate_succ]
      · simpa [superviseLoop, hc, hq] using h2
      · refine ⟨[.recv sig, .forkExecOk q, .Signal p g.ShutdownSignal, .AfterFunc g.Timeout p]
          ++ timerFires os g p ++ [.Wait p, .timerStop] ++ emit g .StateRestart ++ pre, ?_⟩
        simp [superviseLoop, hc, hq, h3]
    | shutdown =>
      have hp := (switchCase_shutdown_iff g sig).mp hc
      have hk : restartsBeforeShutdown g (sig :: rest) = 0 := by
        simp [restartsBeforeShutdown, List.takeWhile, hp.1, hp.2]
      refine ⟨?_, ?_, ?_⟩
      · simp only [superviseLoop, hc, notifications_append, notifications_timerFires, hk]
        simp [notifications, emit, hset]
      · simp [superviseLoop, hc]
      · refine ⟨[.recv sig, .Stop, .Close l, .Signal p g.ShutdownSignal, .AfterFunc g.Timeout p]
          ++ timerFires os g p ++ [.Wait p, .timerStop], ?_⟩
        simp [superviseLoop, hc, emit, hset]
    | none =>
      have hrest : ∃ s ∈ rest, switchCase g s = .shutdown := by
        obtain ⟨s, hs, hsc⟩ := hex
        rcases List.mem_cons.mp hs with rfl | hs
        · rw [hc] at hsc; exact Case.noConfusion hsc
        · exact ⟨s, hs, hsc⟩
      obtain ⟨h1, h2, pre, h3⟩ := ih p n hrest
      have hsig : sig ≠ g.RestartSignal := by
        intro h
        rw [(switchCase_restart_iff g sig).mpr h] at hc
        exact Case.noConfusion hc
      have hnp : ¬ ((sig = SIGINT ∨ sig = g.ShutdownSignal) ∧ sig ≠ g.RestartSignal) := by
        intro h
        rw [(switchCase_shutdown_iff g sig).mpr h] at hc
        exact Case.noConfusion hc
      have hk : restartsBeforeShutdown g (sig :: rest) = restartsBeforeShutdown g rest := by
        simp only [restartsBeforeShutdown, List.takeWhile, hnp, decide_False, Bool.not_false]
        simp [hsig]
      refine ⟨?_, ?_, ?_⟩
      · simp only [superviseLoop, hc, hk]
        simpa [notifications] using h1
      · simpa [superviseLoop, hc] using h2
      · exact ⟨.recv sig :: pre, by simp [superviseLoop, hc, h3]⟩

/-- The loop of `supervise` with the hook unset: the same run, the calls of
the hook left out. -/
theorem superviseLoop_unset (os : OS) (g : Vars) (l : Listener) :
    ∀ (sigs : List Signal) (p : Proc) (n : Nat),
      (superviseLoop os { g with ServerState := false } l p n sigs).trace =
          (superviseLoop os g l p n sigs).trace.filter (fun e => !isHook e) ∧
        (superviseLoop os { g with ServerState := false } l p n sigs).tracked =
          (superviseLoop os g l p n sigs).tracked ∧
        (superviseLoop os { g with ServerState := false } l p n sigs).result =
          (superviseLoop os g l p n sigs).result := by
  intro sigs
  induction sigs with
  | nil => intro p n; simp [superviseLoop]
  | cons sig rest ih =>
    intro p n
    have hsw : switchCase { g with ServerState := false } sig = switchCase g sig := rfl
    have hfk : forkExec os { g with ServerState := false } l n = forkExec os g l n := rfl
    have htf : timerFires os { g with ServerState := false } p = timerFires os g p := rfl
    have hem : ∀ s, emit { g with ServerState := false } s = [] := fun s => rfl
    cases hc : switchCase g sig with
    | restart =>
      cases hq : forkExec os g l n with
      | error err => simp [superviseLoop, hsw, hfk, hc, hq, isHook]
      | ok child =>
        obtain ⟨h1, h2, h3⟩ := ih child (n + 1)
        simp only [superviseLoop, hsw, hfk, hc, hq, htf, hem, h1, h2, h3, List.filter_append,
          filter_timerFires, filter_emit]
        simp [isHook]
    | shutdown =>
      simp only [superviseLoop, hsw, hc, htf, hem, List.filter_append, filter_timerFires,
        filter_emit]
      simp [isHook]
    | none =>
      obtain ⟨h1, h2, h3⟩ := ih p n
      simp only [superviseLoop, hsw, hc, h1, h2, h3]
      simp [isHook]

theorem notifications_filter (tr : List Event) :
    notifications (tr.filter fun e => !isHook e) = [] := by
  induction tr with
  | nil => rfl
  | cons e tr ih =>
    rw [List.filter_cons]
    split
    · rename_i h
      cases e <;> first
        | simpa [notifications] using ih
        | simp [isHook] at h
    · exact ih

/-- C9 as stated fails: with `ShutdownSignal` set to the signal that is also
the `RestartSignal`, every spawn succeeds and the one signal received is the
configured shutdown signal, yet the hook sees `Start`, `Restart` and no
`Shutdown`, and `supervise` has not returned. -/
theorem supervise_notifications_coinciding :
    (∀ m, ∃ q, forkExec (sampleOS []) { ShutdownSignal := SIGHUP, ServerState := true }
        (.tcp 0) m = .ok q) ∧
      (∃ s ∈ [SIGHUP], s = SIGINT ∨ s = ({ ShutdownSignal := SIGHUP, ServerState := true } : Vars).ShutdownSignal) ∧
      notifications
          (supervise (sampleOS []) { ShutdownSignal := SIGHUP, ServerState := true } (.tcp 0)
            [SIGHUP]).trace = [.StateStart, .StateRestart] ∧
      (supervise (sampleOS []) { ShutdownSignal := SIGHUP, ServerState := true } (.tcp 0)
        [SIGHUP]).result = none :=
  ⟨fun m => ⟨100 + m, rfl⟩, ⟨SIGHUP, by decide, by decide⟩, by decide, by decide⟩

/-- C9, amended: when every spawn succeeds and the signals received contain a
shutdown signal (the interrupt or the configured shutdown signal) that is not
also the configured restart signal, a set `ServerState` hook is called with
exactly `Start`, then `Restart` once per restart signal received before the
first such shutdown signal, then `Shutdown`; `Start` comes right after the
first spawn and before `signal.Notify`, hence before any signal is received;
`Shutdown` is the last event and `supervise` has returned.  With the hook unset
nothing is emitted and the run is the same run without the hook calls. -/
theorem supervise_notifications (os : OS) (g : Vars) (l : Listener) (sigs : List Signal)
    (hspawn : ∀ m, ∃ q, forkExec os g l m = .ok q)
    (hshut : ∃ s ∈ sigs, (s = SIGINT ∨ s = g.ShutdownSignal) ∧ s ≠ g.RestartSignal)
    (hset : g.ServerState = true) :
    notifications (supervise os g l sigs).trace =
        [State.StateStart] ++ List.replicate (restartsBeforeShutdown g sigs) State.StateRestart
          ++ [State.StateShutdown] ∧
      (∃ p tail, (supervise os g l sigs).trace =
          .forkExecOk p :: .ServerState .StateStart ::
            .Notify [SIGINT, g.ShutdownSignal, g.RestartSignal] ::
            (tail ++ [.ServerState .StateShutdown])) ∧
      (supervise os g l sigs).result.isSome = true ∧
      notifications (supervise os { g with ServerState := false } l sigs).trace = [] ∧
      (supervise os { g with ServerState := false } l sigs).trace =
        (supervise os g l sigs).trace.filter (fun e => !isHook e) ∧
      (supervise os { g with ServerState := false } l sigs).tracked =
        (supervise os g l sigs).tracked ∧
      (supervise os { g with ServerState := false } l sigs).result =
        (supervise os g l sigs).result := by
  obtain ⟨p, hp⟩ := hspawn 0
  have hcase : ∃ s ∈ sigs, switchCase g s = .shutdown := by
    obtain ⟨s, hs, hsd⟩ := hshut
    exact ⟨s, hs, (switchCase_shutdown_iff g s).mpr hsd⟩
  obtain ⟨h1, h2, pre, h3⟩ := superviseLoop_notifications os g l hspawn hset sigs p 1 hcase
  obtain ⟨u1, u2, u3⟩ := superviseLoop_unset os g l sigs p 1
  have hfk : forkExec os { g with ServerState := false } l 0 = forkExec os g l 0 := rfl
  have hem : ∀ s, emit { g with ServerState := false } s = [] := fun s => rfl
  have htr : (supervise os { g with ServerState := false } l sigs).trace =
      (supervise os g l sigs).trace.filter (fun e => !isHook e) := by
    simp only [supervise, hfk, hp, hem, u1, List.filter_append, filter_emit]
    simp [isHook]
  refine ⟨?_, ⟨p, pre, ?_⟩, ?_, ?_, htr, ?_, ?_⟩
  · simp only [supervise, hp, notifications_append, h1]
    simp [notifications, emit, hset]
  · simp [supervise, hp, emit, hset, h3]
  · simpa [supervise, hp] using h2
  · rw [htr]
    exact notifications_filter _
  · simp only [supervise, hfk, hp, u2]
  · simp only [supervise, hfk, hp, u3]

/-- Two hangups, a terminate request and a late hangup: the hook sees `Start`,
`Restart`, `Restart`, `Shutdown`. -/
theorem supervise_notifications_witness :
    notifications
        (supervise (sampleOS []) { ServerState := true } (.tcp 0)
          [SIGHUP, SIGHUP, SIGTERM, SIGHUP]).trace =
      [.StateStart, .StateRestart, .StateRestart, .StateShutdown] :=
  (supervise_notifications (sampleOS []) { ServerState := true } (.tcp 0)
    [SIGHUP, SIGHUP, SIGTERM, SIGHUP] (fun m => ⟨100 + m, rfl⟩)
    ⟨SIGTERM, by decide, by decide⟩ rfl).1

end Graceful
